import Mathlib

/-!
Shallow embedding of `niimprint/printer.py`: the packet type, the transceiver
(`_transceive`), the receive/drain loop (`_recv`), the print-status decoder
(`get_print_status`), the raster encoder (`_encode_image`) and the print
session (`print_image`).  Bytes are `Nat` (values < 256 on the wire); the
transport is abstracted as scripted data, matching the code's use of it.
-/

/-- A protocol frame as held in memory: `NiimbotPacket(type, data)`.
`ptype` is the 8-bit command/response code (`type` in the Python source),
`data` the payload bytes. -/
structure NiimbotPacket where
  ptype : Nat
  data : List Nat
deriving DecidableEq, Repr

/-- Python exception kinds raised by the code paths modelled here. -/
inductive PyError where
  /-- `raise ValueError` (a type-219 frame; spec name: InvalidCommand),
  and also `int('', 2)` in the raster encoder. -/
  | valueError
  /-- `raise NotImplementedError` (a type-0 frame; spec name: NotSupported). -/
  | notImplementedError
  /-- `packet.data` on `packet = None` (transceive timeout). -/
  | attributeError
  /-- `packet.data[0]` on an empty payload. -/
  | indexError
  /-- the `assert 0 <= idle <= 1` in `get_print_status`. -/
  | assertionError
  /-- `struct.unpack`/`struct.pack` size mismatch. -/
  | structError
  /-- `int.to_bytes` overflow. -/
  | overflowError
deriving DecidableEq, Repr

/-- The two exceptions `_transceive` itself raises. -/
inductive TxError where
  | invalidCommand
  | notSupported
deriving DecidableEq, Repr

def pyOfTx : TxError → PyError
  | .invalidCommand => .valueError
  | .notSupported => .notImplementedError

/-! ## Transceiver (`PrinterClient._transceive`)

The inner `for packet in self._recv()` loop: scan one drained batch, raising
on error frames and keeping the last frame whose type equals `respcode`. -/

def scanBatch (respcode : Nat) (resp : Option NiimbotPacket) :
    List NiimbotPacket → Except TxError (Option NiimbotPacket)
  | [] => .ok resp
  | p :: rest =>
    if p.ptype = 219 then .error .invalidCommand
    else if p.ptype = 0 then .error .notSupported
    else if p.ptype = respcode then scanBatch respcode (some p) rest
    else scanBatch respcode resp rest

/-- The `for _ in range(6)` polling loop of `_transceive`: `recvs i` is the
batch of frames the `i`-th `self._recv()` call drains.  After a batch, the
code returns `resp` if it is set, else sleeps 100 ms and polls again; after
the attempt budget it returns `None`. -/
def transceiveAux (respcode : Nat) (recvs : Nat → List NiimbotPacket) :
    Nat → Nat → Except TxError (Option NiimbotPacket)
  | _, 0 => .ok none
  | i, fuel + 1 =>
    match scanBatch respcode none (recvs i) with
    | .error e => .error e
    | .ok (some p) => .ok (some p)
    | .ok none => transceiveAux respcode recvs (i + 1) fuel

/-- `_transceive(reqcode, data, respoffset)`:
`respcode = respoffset + reqcode`, then 6 polling attempts. -/
def transceive (reqcode respoffset : Nat) (recvs : Nat → List NiimbotPacket) :
    Except TxError (Option NiimbotPacket) :=
  transceiveAux (respoffset + reqcode) recvs 0 6

/-- `get_info(key)`'s transceive call:
`self._transceive(RequestCodeEnum.GET_INFO, bytes((key,)), key)` — the
request code is 64 and the *respoffset* argument is the key itself.  (The
subsequent per-key parsing of the payload is irrelevant to which frames are
matched and is not modelled.) -/
def get_info_raw (key : Nat) (recvs : Nat → List NiimbotPacket) :
    Except TxError (Option NiimbotPacket) :=
  transceive 64 key recvs

/-! ## Drain loop (`PrinterClient._recv`) -/

/-- Modelled from the spec: `NiimbotPacket.from_bytes` lives in `packet.py`,
which is not among the sources.  Per the spec's wire layout, byte 3 of the
buffer is the payload length `L`, the total frame is `L + 7` bytes (fixed
header/checksum/trailer overhead), the type code precedes the length byte and
the payload follows it. -/
def fromBytes (buf : List Nat) : NiimbotPacket :=
  { ptype := buf.getD 2 0, data := (buf.drop 4).take (buf.getD 3 0) }

/-- The `while len(self._packetbuf) > 4` loop of `_recv`, with an iteration
budget `fuel`: `none` means the loop has not exited within `fuel` iterations.
Note the loop body changes nothing when the buffer holds more than 4 bytes
but fewer than `buf[3] + 7`. -/
def recvLoop : Nat → List Nat → List NiimbotPacket →
    Option (List NiimbotPacket × List Nat)
  | 0, _, _ => none
  | fuel + 1, buf, acc =>
    if buf.length > 4 then
      let pktLen := buf.getD 3 0 + 7
      if pktLen ≤ buf.length then
        recvLoop fuel (buf.drop pktLen) (acc ++ [fromBytes (buf.take pktLen)])
      else
        recvLoop fuel buf acc
    else
      some (acc, buf)

/-- One `_recv()` call: extend the buffer with the bytes read from the
transport, then run the extraction loop. -/
def recv (fuel : Nat) (chunk buf : List Nat) :
    Option (List NiimbotPacket × List Nat) :=
  recvLoop fuel (buf ++ chunk) []

/-! ## Status decoding (`get_print_status`) -/

structure PrintStatus where
  unknown0 : Nat
  idle : Bool
  progress1 : Nat
  progress2 : Nat
  unknown1 : Nat
  unknown2 : Nat
  error : Bool
  errorCode : Nat
  openPaperCompartment : Bool
  unknown3 : Nat
  unknown4 : Nat
  unknown5 : Nat
deriving DecidableEq, Repr

/-- The decoding part of `get_print_status`: `struct.unpack(">BBBBBBBBBB", data)`
(exactly 10 bytes), then `assert 0 <= idle <= 1`, then the result dict. -/
def decode_print_status (data : List Nat) : Except PyError PrintStatus :=
  match data with
  | [u0, idle, p1, p2, u1, u2, err, u3, u4, u5] =>
    if idle ≤ 1 then
      .ok { unknown0 := u0, idle := idle != 0, progress1 := p1, progress2 := p2
            unknown1 := u1, unknown2 := u2, error := err != 0, errorCode := err
            openPaperCompartment := err == 1
            unknown3 := u3, unknown4 := u4, unknown5 := u5 }
    else .error .assertionError
  | _ => .error .structError

/-! ## Raster encoder (`PrinterClient._encode_image`) -/

/-- A grayscale (mode "L") image: `pixel x y` is the 0–255 gray value. -/
structure GrayImage where
  width : Nat
  height : Nat
  pixel : Nat → Nat → Nat

/-- The 1-bit image `img` of `_encode_image` after
`ImageOps.invert(image.convert("L")).convert("1")`: `pixel x y` is 0 or 255. -/
structure MonoImage where
  width : Nat
  height : Nat
  pixel : Nat → Nat → Nat

/-- Model of `ImageOps.invert(·).convert("1")` on a grayscale image whose
pixels are all 0 or 255: invert maps `g` to `255 - g`, and thresholding a
pixel that is already 0 or 255 leaves it fixed (Floyd–Steinberg dithering is
the identity on such pixels, so it is immaterial here). -/
def to_mono (g : GrayImage) : MonoImage :=
  { width := g.width, height := g.height
    pixel := fun x y => if 128 ≤ 255 - g.pixel x y then 255 else 0 }

/-- `int(s, 2)` on the joined `"0"/"1"` row string, as a list of bits
(head = leftmost character = most significant).  Python raises `ValueError`
on the empty string. -/
def int_base2 (bits : List Bool) : Except PyError Nat :=
  if bits.isEmpty then .error .valueError
  else .ok (bits.foldl (fun acc b => 2 * acc + (if b then 1 else 0)) 0)

/-- Big-endian byte expansion of `n` into `len` bytes. -/
def bytesBE : Nat → Nat → List Nat
  | 0, _ => []
  | len + 1, n => bytesBE len (n / 256) ++ [n % 256]

/-- `n.to_bytes(len, "big")`: `OverflowError` when `n` does not fit. -/
def to_bytes (len n : Nat) : Except PyError (List Nat) :=
  if n < 256 ^ len then .ok (bytesBE len n) else .error .overflowError

/-- One iteration of the row loop of `_encode_image`: build the pixel bit
string of row `y` (`"0" if pix == 0 else "1"`), parse it in base 2, expand to
`ceil(width / 8)` big-endian bytes, prepend the
`struct.pack(">H3BB", y, 0, 0, 0, 1)` header and wrap as a type-`0x85`
packet. -/
def encode_row (img : MonoImage) (y : Nat) : Except PyError NiimbotPacket :=
  let bits := (List.range img.width).map (fun x => img.pixel x y != 0)
  match int_base2 bits with
  | .error e => .error e
  | .ok v =>
    match to_bytes ((img.width + 7) / 8) v with
    | .error e => .error e
    | .ok lineData =>
      if y < 65536 then
        .ok { ptype := 0x85, data := [y / 256 % 256, y % 256, 0, 0, 0, 1] ++ lineData }
      else .error .structError

/-- Run the generator over the given row indices, collecting the packets
produced before the first failing row (the generator raises there). -/
def encode_rows (img : MonoImage) : List Nat → List NiimbotPacket × Option PyError
  | [] => ([], none)
  | y :: rest =>
    match encode_row img y with
    | .error e => ([], some e)
    | .ok p =>
      let r := encode_rows img rest
      (p :: r.1, r.2)

/-- `_encode_image(image)`: the packets its generator yields, in row order
0, 1, …, `height - 1`, together with the exception that interrupts it, if
any. -/
def encode_image (img : MonoImage) : List NiimbotPacket × Option PyError :=
  encode_rows img (List.range img.height)

/-! ## Print session (`print_image`)

`_transceive` results are abstracted as a script `env : Nat → TxResult`
indexed by transceive-call order; the events `print_image` performs (request
sent per step, raster row packet sent, `time.sleep(0.1)` in the end-print
retry loop) are recorded in a trace. -/

abbrev TxResult := Except TxError (Option NiimbotPacket)

inductive Ev where
  /-- a command request sent through `_transceive` (its request code). -/
  | cmd : Nat → Ev
  /-- a raster row packet sent with `self._send(pkt)`. -/
  | row : NiimbotPacket → Ev
  /-- `time.sleep(0.1)` in the end-print retry loop. -/
  | sleep : Ev
deriving DecidableEq, Repr

inductive PrintResult where
  /-- `print_image` returned normally. -/
  | done
  /-- `print_image` aborted with a Python exception. -/
  | exn : PyError → PrintResult
  /-- model artifact: the loop-iteration budget ran out. -/
  | fuelOut
deriving DecidableEq, Repr

/-- `bool(packet.data[0])` applied to a `_transceive` result, with the Python
failure modes: an exception from `_transceive` propagates, `None` gives
`AttributeError` on `.data`, an empty payload gives `IndexError`. -/
def bool_reply : TxResult → Except PyError Bool
  | .error e => .error (pyOfTx e)
  | .ok none => .error .attributeError
  | .ok (some p) =>
    match p.data with
    | [] => .error .indexError
    | b :: _ => .ok (b != 0)

/-- `get_print_status` applied to a `_transceive` result: decode the payload. -/
def status_reply : TxResult → Except PyError PrintStatus
  | .error e => .error (pyOfTx e)
  | .ok none => .error .attributeError
  | .ok (some p) => decode_print_status p.data

/-- The `while True: … get_print_status() … if idle: break` poll of
`print_image`; `i` is the index of the next transceive call.  Returns the
trace of the loop, the next call index, and how the loop ended. -/
def status_poll_loop (env : Nat → TxResult) :
    Nat → Nat → List Ev × Nat × PrintResult
  | i, 0 => ([], i, .fuelOut)
  | i, fuel + 1 =>
    match status_reply (env i) with
    | .error e => ([Ev.cmd 163], i + 1, .exn e)
    | .ok st =>
      if st.idle then ([Ev.cmd 163], i + 1, .done)
      else
        let r := status_poll_loop env (i + 1) fuel
        (Ev.cmd 163 :: r.1, r.2.1, r.2.2)

/-- The `while not self.end_print(): time.sleep(0.1)` loop of `print_image`. -/
def end_print_loop (env : Nat → TxResult) :
    Nat → Nat → List Ev × PrintResult
  | _, 0 => ([], .fuelOut)
  | i, fuel + 1 =>
    match bool_reply (env i) with
    | .error e => ([Ev.cmd 243], .exn e)
    | .ok true => ([Ev.cmd 243], .done)
    | .ok false =>
      let r := end_print_loop env (i + 1) fuel
      (Ev.cmd 243 :: Ev.sleep :: r.1, r.2)

/-- `print_image(image, density)` over a transceive-result script `env`
(call 0 = set_label_density, 1 = set_label_type, 2 = start_print,
3 = start_page_print, 4 = set_dimension, 5 = end_page_print, then the status
polls and the end-print retries).  The code computes — and discards — the
boolean reply of each leading step, streams the raster rows, and runs the two
polling loops; `fuelS`/`fuelE` bound the two loops in the model. -/
def print_image (img : MonoImage) (env : Nat → TxResult) (fuelS fuelE : Nat) :
    List Ev × PrintResult :=
  match bool_reply (env 0) with
  | .error e => ([Ev.cmd 33], .exn e)
  | .ok _ =>
  match bool_reply (env 1) with
  | .error e => ([Ev.cmd 33, Ev.cmd 35], .exn e)
  | .ok _ =>
  match bool_reply (env 2) with
  | .error e => ([Ev.cmd 33, Ev.cmd 35, Ev.cmd 1], .exn e)
  | .ok _ =>
  match bool_reply (env 3) with
  | .error e => ([Ev.cmd 33, Ev.cmd 35, Ev.cmd 1, Ev.cmd 3], .exn e)
  | .ok _ =>
  match bool_reply (env 4) with
  | .error e => ([Ev.cmd 33, Ev.cmd 35, Ev.cmd 1, Ev.cmd 3, Ev.cmd 19], .exn e)
  | .ok _ =>
    let head := [Ev.cmd 33, Ev.cmd 35, Ev.cmd 1, Ev.cmd 3, Ev.cmd 19]
    let enc := encode_image img
    let rowEvs := enc.1.map Ev.row
    match enc.2 with
    | some e => (head ++ rowEvs, .exn e)
    | none =>
    match bool_reply (env 5) with
    | .error e => (head ++ rowEvs ++ [Ev.cmd 227], .exn e)
    | .ok _ =>
      let s := status_poll_loop env 6 fuelS
      match s.2.2 with
      | .done =>
        let r := end_print_loop env s.2.1 fuelE
        (head ++ rowEvs ++ [Ev.cmd 227] ++ s.1 ++ r.1, r.2)
      | other => (head ++ rowEvs ++ [Ev.cmd 227] ++ s.1, other)

/-! ## Helper lemmas about the transceiver -/

/-- A batch with no error frame and no frame of the expected type leaves the
scan accumulator unchanged. -/
theorem scanBatch_clean (c : Nat) (l : List NiimbotPacket) (r : Option NiimbotPacket)
    (h : ∀ p ∈ l, p.ptype ≠ 219 ∧ p.ptype ≠ 0 ∧ p.ptype ≠ c) :
    scanBatch c r l = .ok r := by
  induction l generalizing r with
  | nil => rfl
  | cons p rest ih =>
    obtain ⟨h1, h2, h3⟩ := h p (List.mem_cons_self p rest)
    simp only [scanBatch, if_neg h1, if_neg h2, if_neg h3]
    exact ih r fun q hq => h q (List.mem_cons_of_mem p hq)

/-- Polling attempts whose batches contain nothing of interest are skipped. -/
theorem transceiveAux_skip (c : Nat) (recvs : Nat → List NiimbotPacket) :
    ∀ (k fuel i : Nat),
      (∀ j, j < k → ∀ p ∈ recvs (i + j), p.ptype ≠ 219 ∧ p.ptype ≠ 0 ∧ p.ptype ≠ c) →
      transceiveAux c recvs i (k + fuel) = transceiveAux c recvs (i + k) fuel := by
  intro k
  induction k with
  | zero => intro fuel i _; simp
  | succ k ih =>
    intro fuel i h
    have hstep : scanBatch c none (recvs i) = .ok none := by
      refine scanBatch_clean c _ none fun p hp => ?_
      have := h 0 (by omega) p (by simpa using hp)
      exact this
    have harith : k + 1 + fuel = (k + fuel) + 1 := by omega
    rw [harith]
    simp only [transceiveAux, hstep]
    have hrest : ∀ j, j < k → ∀ p ∈ recvs (i + 1 + j),
        p.ptype ≠ 219 ∧ p.ptype ≠ 0 ∧ p.ptype ≠ c := by
      intro j hj p hp
      refine h (j + 1) (by omega) p ?_
      have : i + 1 + j = i + (j + 1) := by omega
      rwa [this] at hp
    rw [ih fuel (i + 1) hrest]
    congr 1
    omega

/-! ## Claim theorems (first group) -/

/-- C2 (counterexample): decoding the `GET_PRINT_STATUS` payload
`[0,0,1,5,10,0,0,0,0,0]` yields `idle = false`, not `idle = true` as
claimed — the idle flag is the second payload byte, which is 0 here. -/
theorem c2_counterexample :
    (decode_print_status [0, 0, 1, 5, 10, 0, 0, 0, 0, 0]).toOption.map PrintStatus.idle =
      some false := rfl

/-- C2 (amended): decoding the fixed 10-byte payload `[0,0,1,5,10,0,0,0,0,0]`
(positionally: one reserved byte, the idle flag, two progress counters, two
reserved bytes, the error code, three trailing reserved bytes) yields
`idle = false`, `progress1 = 1`, `progress2 = 5`, `error = false`. -/
theorem c2_theorem :
    decode_print_status [0, 0, 1, 5, 10, 0, 0, 0, 0, 0] =
      .ok { unknown0 := 0, idle := false, progress1 := 1, progress2 := 5,
            unknown1 := 10, unknown2 := 0, error := false, errorCode := 0,
            openPaperCompartment := false, unknown3 := 0, unknown4 := 0,
            unknown5 := 0 } := rfl

/-- C3 (counterexample): a `GET_INFO` request for key 1 (`DENSITY`) does not
match a reply frame whose type equals the key itself — such a frame is
ignored on every polling attempt and the call times out — whereas a frame of
type `64 + 1` is matched and returned. -/
theorem c3_counterexample :
    get_info_raw 1 (fun _ => [{ ptype := 1, data := [5] }]) = .ok none ∧
    get_info_raw 1 (fun _ => [{ ptype := 65, data := [5] }]) =
      .ok (some { ptype := 65, data := [5] }) :=
  ⟨rfl, rfl⟩

/-- C3 (amended): the reply code a `GET_INFO` request for key `k` waits for is
`k + 64` — the requested info-key value *plus* the `GET_INFO` request code, a
data-dependent offset from the request code: a single frame of type `64 + k`
is matched and returned, while frames of type `k` itself are ignored on every
attempt and the call returns `None`. -/
theorem c3_theorem :
    (∀ (key : Nat) (q : NiimbotPacket) (recvs : Nat → List NiimbotPacket),
        key ≤ 15 → recvs 0 = [q] → q.ptype = 64 + key →
        get_info_raw key recvs = .ok (some q)) ∧
    (∀ (key : Nat) (recvs : Nat → List NiimbotPacket),
        1 ≤ key → key ≤ 15 →
        (∀ i, i < 6 → ∀ p ∈ recvs i, p.ptype = key) →
        get_info_raw key recvs = .ok none) := by
  constructor
  · intro key q recvs hk h0 hq
    show transceiveAux (key + 64) recvs 0 6 = .ok (some q)
    have hscan : scanBatch (key + 64) none (recvs 0) = .ok (some q) := by
      rw [h0]
      simp only [scanBatch]
      rw [if_neg (by omega), if_neg (by omega), if_pos (by omega)]
    simp only [show (6 : Nat) = 5 + 1 from rfl, transceiveAux, hscan]
  · intro key recvs h1 h15 hall
    show transceiveAux (key + 64) recvs 0 6 = .ok none
    have hclean : ∀ j, j < 6 → ∀ p ∈ recvs (0 + j),
        p.ptype ≠ 219 ∧ p.ptype ≠ 0 ∧ p.ptype ≠ key + 64 := by
      intro j hj p hp
      rw [Nat.zero_add] at hp
      have := hall j hj p hp
      omega
    have := transceiveAux_skip (key + 64) recvs 6 0 0 hclean
    simpa using this

/-- C3 (witness): the amended theorem at key 2 with concrete reply frames. -/
theorem c3_witness :
    get_info_raw 2 (fun _ => [{ ptype := 66, data := [3] }]) =
      .ok (some { ptype := 66, data := [3] }) ∧
    get_info_raw 2 (fun _ => [{ ptype := 2, data := [3] }]) = .ok none :=
  ⟨c3_theorem.1 2 { ptype := 66, data := [3] } _ (by decide) rfl rfl,
   c3_theorem.2 2 _ (by decide) (by decide) (by decide)⟩

/-- A buffer longer than 4 bytes but shorter than the frame length announced
by its byte 3 keeps the drain loop spinning: the loop body changes nothing,
so no iteration budget suffices. -/
theorem recvLoop_stuck (buf : List Nat) (h1 : 4 < buf.length)
    (h2 : buf.length < buf.getD 3 0 + 7) :
    ∀ (fuel : Nat) (acc : List NiimbotPacket), recvLoop fuel buf acc = none := by
  intro fuel
  induction fuel with
  | zero => intro acc; rfl
  | succ fuel ih =>
    intro acc
    simp only [recvLoop, if_pos h1, if_neg (by omega : ¬buf.getD 3 0 + 7 ≤ buf.length)]
    exact ih acc

/-- C4: `_recv` does *not* return on every call.  With the first five bytes
of an eight-byte frame in the buffer (type 1, payload length 1, so
`buffer[3] + 7 = 8 > 5`), the `while len(buf) > 4` loop neither extracts a
frame nor exits, for every iteration budget: the call never returns. -/
theorem c4_theorem : ∀ fuel : Nat, recv fuel [0] [85, 85, 1, 1] = none := by
  intro fuel
  show recvLoop fuel ([85, 85, 1, 1] ++ [0]) [] = none
  exact recvLoop_stuck ([85, 85, 1, 1] ++ [0]) (by decide) (by decide) fuel []

/-- The 1×8 monochrome image obtained from the pure-white grayscale image:
inversion maps 255 to 0, and thresholding keeps it 0 (not inked). -/
def white1x8 : MonoImage := to_mono { width := 8, height := 1, pixel := fun _ _ => 255 }

/-- The 1×8 monochrome image obtained from the pure-black grayscale image. -/
def black1x8 : MonoImage := to_mono { width := 8, height := 1, pixel := fun _ _ => 0 }

/-- C8: the raster encoder turns the 1×8 pure-white image into exactly one
row packet whose packed row-data byte is `0x00` (header
`[0, 0, 0, 0, 0, 1]`: row index 0, three zero counters, marker 1), and the
pure-black image into one row packet with data byte `0xFF`. -/
theorem c8_theorem :
    encode_image white1x8 =
      ([{ ptype := 0x85, data := [0, 0, 0, 0, 0, 1, 0x00] }], none) ∧
    encode_image black1x8 =
      ([{ ptype := 0x85, data := [0, 0, 0, 0, 0, 1, 0xFF] }], none) :=
  ⟨rfl, rfl⟩

/-- In a batch without error frames, the scan is the left fold that replaces
the accumulator at every frame of the expected type. -/
theorem scanBatch_noerr (c : Nat) (l : List NiimbotPacket)
    (h : ∀ p ∈ l, p.ptype ≠ 219 ∧ p.ptype ≠ 0) :
    ∀ r, scanBatch c r l =
      .ok (l.foldl (fun acc p => if p.ptype = c then some p else acc) r) := by
  induction l with
  | nil => intro r; rfl
  | cons p rest ih =>
    intro r
    obtain ⟨h1, h2⟩ := h p (List.mem_cons_self p rest)
    have hrest := fun q hq => h q (List.mem_cons_of_mem p hq)
    simp only [scanBatch, if_neg h1, if_neg h2, List.foldl_cons]
    by_cases hm : p.ptype = c
    · simp only [if_pos hm]
      exact ih hrest (some p)
    · simp only [if_neg hm]
      exact ih hrest r

/-- The replace-on-match fold keeps the *last* matching element: it equals
the first match of the reversed list (falling back to the seed). -/
theorem foldl_pick_last (c : Nat) (l : List NiimbotPacket) :
    ∀ r, l.foldl (fun acc p => if p.ptype = c then some p else acc) r =
      (l.reverse.find? (fun p => p.ptype == c)).elim r some := by
  induction l with
  | nil => intro r; rfl
  | cons p rest ih =>
    intro r
    simp only [List.foldl_cons, List.reverse_cons, List.find?_append, ih]
    cases hfind : rest.reverse.find? (fun p => p.ptype == c) with
    | some q => simp
    | none =>
      by_cases hm : p.ptype = c
      · simp [List.find?, hm]
      · have hb : (p.ptype == c) = false := by simp [hm]
        simp [List.find?, hb, hm]

/-- An error-typed frame anywhere after an error-free prefix makes the scan
raise, whatever the accumulator and whatever follows it. -/
theorem scanBatch_error (c : Nat) (pre suf : List NiimbotPacket) (p : NiimbotPacket)
    (hpre : ∀ q ∈ pre, q.ptype ≠ 219 ∧ q.ptype ≠ 0) :
    ∀ r, (p.ptype = 219 → scanBatch c r (pre ++ p :: suf) = .error .invalidCommand) ∧
      (p.ptype = 0 → scanBatch c r (pre ++ p :: suf) = .error .notSupported) := by
  induction pre with
  | nil =>
    intro r
    constructor <;> intro hp
    · simp [scanBatch, hp]
    · simp [scanBatch, hp]
  | cons a rest ih =>
    intro r
    obtain ⟨h1, h2⟩ := hpre a (List.mem_cons_self a rest)
    have ih' := ih fun q hq => hpre q (List.mem_cons_of_mem a hq)
    constructor <;> intro hp
    · simp only [List.cons_append, scanBatch, if_neg h1, if_neg h2]
      by_cases hm : a.ptype = c
      · simp only [if_pos hm]; exact (ih' (some a)).1 hp
      · simp only [if_neg hm]; exact (ih' r).1 hp
    · simp only [List.cons_append, scanBatch, if_neg h1, if_neg h2]
      by_cases hm : a.ptype = c
      · simp only [if_pos hm]; exact (ih' (some a)).2 hp
      · simp only [if_neg hm]; exact (ih' r).2 hp

/-- C5: within one transceive call, the full batch of a single drain pass is
scanned before deciding: frames whose type is neither the expected response
code (`respoffset + reqcode`) nor an error code are ignored, and the frame
returned is the *last* one of the expected type in the batch (the first
match of the reversed batch).  The later drain passes `recvs 1, …` are
arbitrary: the result is decided after the first pass containing a match. -/
theorem c5_theorem (reqcode respoffset : Nat) (recvs : Nat → List NiimbotPacket)
    (q : NiimbotPacket)
    (hne : ∀ p ∈ recvs 0, p.ptype ≠ 219 ∧ p.ptype ≠ 0)
    (hlast : (recvs 0).reverse.find? (fun p => p.ptype == respoffset + reqcode) = some q) :
    transceive reqcode respoffset recvs = .ok (some q) := by
  show transceiveAux (respoffset + reqcode) recvs 0 6 = .ok (some q)
  have hscan : scanBatch (respoffset + reqcode) none (recvs 0) = .ok (some q) := by
    rw [scanBatch_noerr _ _ hne none, foldl_pick_last, hlast]
    rfl
  simp only [show (6 : Nat) = 5 + 1 from rfl, transceiveAux, hscan]

/-- C5 (witness): a batch holding a first match, an unrelated frame and a
second match returns the second match. -/
theorem c5_witness :
    transceive 1 16 (fun _ =>
      [{ ptype := 17, data := [1] }, { ptype := 99, data := [] },
       { ptype := 17, data := [2] }]) = .ok (some { ptype := 17, data := [2] }) :=
  c5_theorem 1 16 _ { ptype := 17, data := [2] } (by decide) (by decide)

/-- C6: during a transceive call — whatever the request and expected reply
code — the first error-typed frame encountered aborts the whole operation at
once: type 219 raises the `InvalidCommand` error (`ValueError` in the code),
type 0 raises the `NotSupported` error (`NotImplementedError`), regardless
of the frames after it (even in the same batch) and of any already-matched
frame earlier in the batch. -/
theorem c6_theorem (reqcode respoffset : Nat) (recvs : Nat → List NiimbotPacket)
    (i : Nat) (pre suf : List NiimbotPacket) (p : NiimbotPacket)
    (hi : i < 6)
    (hbefore : ∀ j, j < i → ∀ q ∈ recvs j,
      q.ptype ≠ 219 ∧ q.ptype ≠ 0 ∧ q.ptype ≠ respoffset + reqcode)
    (hbatch : recvs i = pre ++ p :: suf)
    (hpre : ∀ q ∈ pre, q.ptype ≠ 219 ∧ q.ptype ≠ 0) :
    (p.ptype = 219 → transceive reqcode respoffset recvs = .error .invalidCommand) ∧
    (p.ptype = 0 → transceive reqcode respoffset recvs = .error .notSupported) := by
  have hskip : transceiveAux (respoffset + reqcode) recvs 0 6 =
      transceiveAux (respoffset + reqcode) recvs i (6 - i) := by
    have h6 : (6 : Nat) = i + (6 - i) := by omega
    have hclean : ∀ j, j < i → ∀ q ∈ recvs (0 + j),
        q.ptype ≠ 219 ∧ q.ptype ≠ 0 ∧ q.ptype ≠ respoffset + reqcode := by
      intro j hj q hq
      rw [Nat.zero_add] at hq
      exact hbefore j hj q hq
    rw [h6, transceiveAux_skip _ recvs i (6 - i) 0 hclean, Nat.zero_add]
    congr 1
    omega
  obtain ⟨m, hm⟩ : ∃ m, 6 - i = m + 1 := ⟨5 - i, by omega⟩
  have herr := scanBatch_error (respoffset + reqcode) pre suf p hpre none
  constructor <;> intro hp
  · have hbatch : scanBatch (respoffset + reqcode) none (recvs i) =
        .error .invalidCommand := by rw [hbatch]; exact herr.1 hp
    show transceiveAux (respoffset + reqcode) recvs 0 6 = _
    rw [hskip, hm]
    simp only [transceiveAux, hbatch]
  · have hbatch2 : scanBatch (respoffset + reqcode) none (recvs i) =
        .error .notSupported := by rw [hbatch]; exact herr.2 hp
    show transceiveAux (respoffset + reqcode) recvs 0 6 = _
    rw [hskip, hm]
    simp only [transceiveAux, hbatch2]

/-- C6 (witness): a type-219 frame aborts with `InvalidCommand` even when a
matching frame precedes it in the same batch; a type-0 frame aborts with
`NotSupported`. -/
theorem c6_witness :
    transceive 3 1 (fun _ => [{ ptype := 4, data := [1] }, { ptype := 219, data := [] }]) =
      .error .invalidCommand ∧
    transceive 3 1 (fun _ => [{ ptype := 0, data := [] }]) = .error .notSupported :=
  ⟨(c6_theorem 3 1 _ 0 [{ ptype := 4, data := [1] }] [] { ptype := 219, data := [] }
      (by decide) (fun j hj => absurd hj (Nat.not_lt_zero j)) rfl (by decide)).1 rfl,
   (c6_theorem 3 1 _ 0 [] [] { ptype := 0, data := [] }
      (by decide) (fun j hj => absurd hj (Nat.not_lt_zero j)) rfl (by decide)).2 rfl⟩

/-- C7: when no frame of the expected type (and no error frame) arrives in
any of the 6 polling attempts, `transceive` returns `None`; and a `None`
result for the very first step of `print_image` (set label density) aborts
the session — `bool(packet.data[0])` on `None` raises `AttributeError` — so
the only command ever sent is that first one. -/
theorem c7_theorem :
    (∀ (reqcode respoffset : Nat) (recvs : Nat → List NiimbotPacket),
        (∀ i, i < 6 → ∀ p ∈ recvs i,
          p.ptype ≠ 219 ∧ p.ptype ≠ 0 ∧ p.ptype ≠ respoffset + reqcode) →
        transceive reqcode respoffset recvs = .ok none) ∧
    (∀ (img : MonoImage) (env : Nat → TxResult) (fuelS fuelE : Nat),
        env 0 = .ok none →
        print_image img env fuelS fuelE = ([Ev.cmd 33], .exn .attributeError)) := by
  constructor
  · intro reqcode respoffset recvs h
    show transceiveAux (respoffset + reqcode) recvs 0 6 = .ok none
    have hclean : ∀ j, j < 6 → ∀ p ∈ recvs (0 + j),
        p.ptype ≠ 219 ∧ p.ptype ≠ 0 ∧ p.ptype ≠ respoffset + reqcode := by
      intro j hj p hp
      rw [Nat.zero_add] at hp
      exact h j hj p hp
    have := transceiveAux_skip (respoffset + reqcode) recvs 6 0 0 hclean
    simpa using this
  · intro img env fuelS fuelE h0
    simp only [print_image, h0, bool_reply]

/-- C7 (witness): six empty drain passes time out, and a session whose first
transceive times out stops after the first command. -/
theorem c7_witness :
    transceive 33 16 (fun _ => []) = .ok none ∧
    print_image white1x8 (fun _ => transceive 33 16 (fun _ => [])) 1 1 =
      ([Ev.cmd 33], .exn .attributeError) :=
  ⟨c7_theorem.1 33 16 _ (fun _ _ p hp => absurd hp (List.not_mem_nil p)),
   c7_theorem.2 white1x8 _ 1 1 rfl⟩

/-- The reply script in which the very first step (set label density) reports
failure — a well-formed reply whose first payload byte is 0 — and every later
reply is a well-formed success. -/
def envC1 : Nat → TxResult := fun i =>
  if i = 0 then .ok (some { ptype := 49, data := [0] })
  else .ok (some { ptype := 0, data := [1] })

/-- C1 (counterexample): a failure report from the set-label-density step does
*not* abort the session: its boolean reply is `false`, yet the next command of
the print sequence (set label type, code 35) is still sent. -/
theorem c1_counterexample :
    bool_reply (envC1 0) = .ok false ∧
    Ev.cmd 35 ∈ (print_image white1x8 envC1 1 1).1 := by
  constructor
  · rfl
  · decide

/-- C1 (amended): `print_image` ignores the boolean results of the
configuration/start steps — whenever each of the first five steps gets a
well-formed reply packet (whatever its first payload byte reports), all five
leading commands (set density 33, set type 35, start print 1, start page 3,
set dimension 19) are sent; the session aborts only when a step raises
(timeout `None` or an error frame), not when a step merely reports failure. -/
theorem c1_theorem (img : MonoImage) (env : Nat → TxResult) (fuelS fuelE : Nat)
    (h : ∀ i, i < 5 → ∃ b, bool_reply (env i) = .ok b) :
    ∃ t, (print_image img env fuelS fuelE).1 =
      [Ev.cmd 33, Ev.cmd 35, Ev.cmd 1, Ev.cmd 3, Ev.cmd 19] ++ t := by
  obtain ⟨b0, h0⟩ := h 0 (by omega)
  obtain ⟨b1, h1⟩ := h 1 (by omega)
  obtain ⟨b2, h2⟩ := h 2 (by omega)
  obtain ⟨b3, h3⟩ := h 3 (by omega)
  obtain ⟨b4, h4⟩ := h 4 (by omega)
  simp only [print_image, h0, h1, h2, h3, h4]
  split
  · exact ⟨_, rfl⟩
  · split
    · simp only [List.append_assoc]
      exact ⟨_, rfl⟩
    · split
      · simp only [List.append_assoc]
        exact ⟨_, rfl⟩
      · simp only [List.append_assoc]
        exact ⟨_, rfl⟩

/-- C1 (witness): the amended theorem on an all-success script. -/
theorem c1_witness :
    (∀ i, i < 5 →
      ∃ b, bool_reply ((fun _ => (Except.ok (some { ptype := 0, data := [1] }) :
        TxResult)) i) = .ok b) ∧
    ∃ t, (print_image white1x8
        (fun _ => .ok (some { ptype := 0, data := [1] })) 1 1).1 =
      [Ev.cmd 33, Ev.cmd 35, Ev.cmd 1, Ev.cmd 3, Ev.cmd 19] ++ t :=
  ⟨fun _ _ => ⟨true, rfl⟩, c1_theorem white1x8 _ 1 1 (fun _ _ => ⟨true, rfl⟩)⟩

/-- The end-print retry loop: `n` failure replies followed by a success give
`n` retries, each preceded by a 100 ms sleep, then a final successful send. -/
theorem end_print_loop_spec (env : Nat → TxResult) :
    ∀ (n i fuelE : Nat),
      (∀ k, k < n → bool_reply (env (i + k)) = .ok false) →
      bool_reply (env (i + n)) = .ok true →
      n < fuelE →
      end_print_loop env i fuelE =
        ((List.replicate n [Ev.cmd 243, Ev.sleep]).flatten ++ [Ev.cmd 243], .done) := by
  intro n
  induction n with
  | zero =>
    intro i fuelE _ htrue hf
    obtain ⟨f, rfl⟩ : ∃ f, fuelE = f + 1 := ⟨fuelE - 1, by omega⟩
    rw [Nat.add_zero] at htrue
    simp [end_print_loop, htrue]
  | succ n ih =>
    intro i fuelE hfalse htrue hf
    obtain ⟨f, rfl⟩ : ∃ f, fuelE = f + 1 := ⟨fuelE - 1, by omega⟩
    have h0 : bool_reply (env i) = .ok false := by
      have := hfalse 0 (by omega)
      rwa [Nat.add_zero] at this
    have ihx := ih (i + 1) f
      (fun k hk => by
        have := hfalse (k + 1) (by omega)
        rwa [show i + (k + 1) = i + 1 + k by omega] at this)
      (by rwa [show i + 1 + n = i + (n + 1) by omega])
      (by omega)
    simp [end_print_loop, h0, ihx, List.replicate_succ]

/-- C9: once the status poll reports idle, `print_image` sends end-print and,
for *every* number `n` of failure replies, retries it `n` times — sleeping
100 ms before each retry — until the first success, then returns normally:
the retrying is unbounded, unlike the fail-fast treatment of exceptions in
earlier steps. -/
theorem c9_theorem (img : MonoImage) (env : Nat → TxResult) (fuelS n fuelE : Nat)
    (hsteps : ∀ i, i < 6 → ∃ b, bool_reply (env i) = .ok b)
    (henc : (encode_image img).2 = none)
    (hidle : ∃ st, status_reply (env 6) = .ok st ∧ st.idle = true)
    (hfail : ∀ k, k < n → bool_reply (env (7 + k)) = .ok false)
    (hsucc : bool_reply (env (7 + n)) = .ok true)
    (hfuel : n < fuelE) :
    print_image img env (fuelS + 1) fuelE =
      ([Ev.cmd 33, Ev.cmd 35, Ev.cmd 1, Ev.cmd 3, Ev.cmd 19] ++
        (encode_image img).1.map Ev.row ++ [Ev.cmd 227] ++ [Ev.cmd 163] ++
        ((List.replicate n [Ev.cmd 243, Ev.sleep]).flatten ++ [Ev.cmd 243]),
       .done) := by
  obtain ⟨b0, h0⟩ := hsteps 0 (by omega)
  obtain ⟨b1, h1⟩ := hsteps 1 (by omega)
  obtain ⟨b2, h2⟩ := hsteps 2 (by omega)
  obtain ⟨b3, h3⟩ := hsteps 3 (by omega)
  obtain ⟨b4, h4⟩ := hsteps 4 (by omega)
  obtain ⟨b5, h5⟩ := hsteps 5 (by omega)
  obtain ⟨st, hst, hstidle⟩ := hidle
  have hstatus : status_poll_loop env 6 (fuelS + 1) = ([Ev.cmd 163], 7, .done) := by
    simp [status_poll_loop, hst, hstidle]
  have hend := end_print_loop_spec env n 7 fuelE hfail hsucc hfuel
  simp only [print_image, h0, h1, h2, h3, h4, henc, h5, hstatus, hend]

/-- A script: six successful steps, an idle status reply, two end-print
failure replies, then an end-print success. -/
def envC9 : Nat → TxResult := fun i =>
  if i = 6 then .ok (some { ptype := 0, data := [0, 1, 0, 0, 0, 0, 0, 0, 0, 0] })
  else if i = 7 ∨ i = 8 then .ok (some { ptype := 0, data := [0] })
  else .ok (some { ptype := 0, data := [1] })

/-- C9 (witness): with two end-print failures the session sends end-print
three times, sleeping before each retry, and finishes. -/
theorem c9_witness :
    print_image white1x8 envC9 1 3 =
      ([Ev.cmd 33, Ev.cmd 35, Ev.cmd 1, Ev.cmd 3, Ev.cmd 19] ++
        (encode_image white1x8).1.map Ev.row ++ [Ev.cmd 227] ++ [Ev.cmd 163] ++
        ((List.replicate 2 [Ev.cmd 243, Ev.sleep]).flatten ++ [Ev.cmd 243]),
       .done) :=
  c9_theorem white1x8 envC9 0 2 3
    (fun i hi => ⟨true, by interval_cases i <;> rfl⟩)
    rfl
    ⟨{ unknown0 := 0, idle := true, progress1 := 0, progress2 := 0, unknown1 := 0,
       unknown2 := 0, error := false, errorCode := 0, openPaperCompartment := false,
       unknown3 := 0, unknown4 := 0, unknown5 := 0 }, rfl, rfl⟩
    (fun k hk => by interval_cases k <;> rfl)
    rfl
    (by omega)

/-- A zero-width image fails on its very first row: the pixel bit string is
empty and `int('', 2)` raises `ValueError` before any packet is produced. -/
theorem encode_image_width0 (img : MonoImage) (hw : img.width = 0)
    (hh : 1 ≤ img.height) : encode_image img = ([], some .valueError) := by
  obtain ⟨k, hk⟩ := Nat.exists_eq_succ_of_ne_zero (by omega : img.height ≠ 0)
  rw [encode_image, hk, List.range_succ_eq_map]
  simp [encode_rows, encode_row, hw, int_base2]

/-- C10: for every image of width 0 and height at least 1, `print_image`
aborts with the `ValueError` from encoding the first raster row; the trace
holds the five leading commands and *no* row packet — none is produced or
sent. -/
theorem c10_theorem (img : MonoImage) (env : Nat → TxResult) (fuelS fuelE : Nat)
    (hw : img.width = 0) (hh : 1 ≤ img.height)
    (hsteps : ∀ i, i < 5 → ∃ b, bool_reply (env i) = .ok b) :
    print_image img env fuelS fuelE =
      ([Ev.cmd 33, Ev.cmd 35, Ev.cmd 1, Ev.cmd 3, Ev.cmd 19], .exn .valueError) := by
  obtain ⟨b0, h0⟩ := hsteps 0 (by omega)
  obtain ⟨b1, h1⟩ := hsteps 1 (by omega)
  obtain ⟨b2, h2⟩ := hsteps 2 (by omega)
  obtain ⟨b3, h3⟩ := hsteps 3 (by omega)
  obtain ⟨b4, h4⟩ := hsteps 4 (by omega)
  have henc := encode_image_width0 img hw hh
  simp only [print_image, h0, h1, h2, h3, h4, henc]
  simp

/-- C10 (witness): the 0×1 image with an all-success script. -/
theorem c10_witness :
    print_image { width := 0, height := 1, pixel := fun _ _ => 0 }
      (fun _ => .ok (some { ptype := 0, data := [1] })) 1 1 =
      ([Ev.cmd 33, Ev.cmd 35, Ev.cmd 1, Ev.cmd 3, Ev.cmd 19], .exn .valueError) :=
  c10_theorem { width := 0, height := 1, pixel := fun _ _ => 0 } _ 1 1 rfl
    (by decide) (fun _ _ => ⟨true, rfl⟩)
